import Mathlib

/-!
# GaiaTunnel: the shell task executor (`shell.go`)

A shallow embedding of the `Shell` task of package `tunnel` and of its
operations `Init`, `CheckRole`, `FileName`, `OutputFileName`, `Save`, `Start`,
`Stop`, `Finish`, `IsRunning`, `IsFinish` and `Waiting`, followed by the
properties established about them.

Conventions of the embedding.

* Go's `int64`, `int` and `time.Duration` are `Int`; where the source does
  arithmetic on them the result is wrapped by `wrap64`.
* A `nil` slice is the empty list.
* Everything the operating system decides (the file system, the user
  database, the spawn, the child's exit, the clock, the order in which the
  watcher goroutine and the waiting flow run) is a field of `Host`.
* `strings.ToUpper` and `strings.TrimSpace` belong to the Go standard library
  and are fields of `Host` as well; no property below depends on what they
  compute.
-/

namespace GaiaTunnel

/-! ## Machine integers -/

/-- Two's-complement wrap of an integer into the range of `int64`. -/
def wrap64 (x : Int) : Int := (x + 2 ^ 63) % 2 ^ 64 - 2 ^ 63

/-! ## Data model -/

/-- The `Arg` struct: one key/value pair of a parameter group. -/
structure Arg where
  Key : String
  Value : String
  deriving DecidableEq, Repr

/-- A `time.Time`, reduced to what the source reads from it: `Unix()` seconds
and the nanosecond within that second. -/
structure Time where
  Unix : Int
  Nsec : Int
  deriving DecidableEq, Repr

/-- The method `Time.UnixNano()`, an `int64`. -/
def Time.UnixNano (t : Time) : Int := wrap64 (t.Unix * 1000000000 + t.Nsec)

/-- The part of `user.User` that the source reads. -/
structure User where
  Uid : String
  Gid : String
  deriving DecidableEq, Repr

/-- The `Shell` struct. `State`: 0-prepare, 1-SavErr, 2-Saved, 3-RoleErr,
4-StartErr, 5-running, 6-timeout, 7-failed, 8-killed, 9-success. -/
structure Shell where
  Id : Int
  Idx : String
  Content : String
  Timeout : Int
  Role : String
  Args : List Arg
  PoolAttr : List Arg
  GlobalArgs : List Arg
  Agent : List Arg
  State : Int
  Pid : Int
  Path : String
  BeginTime : Time
  EndTime : Time
  User : Option User
  deriving DecidableEq, Repr

/-- The package variables `MinTimeout`, `DefTimeout`, `MaxTimeout`, `DefPath`.
They are mutable in the source, hence a parameter here. -/
structure Config where
  MinTimeout : Int
  DefTimeout : Int
  MaxTimeout : Int
  DefPath : String
  deriving DecidableEq, Repr

/-- The values the package variables are initialised with. -/
def defaultConfig : Config :=
  { MinTimeout := 5, DefTimeout := 10, MaxTimeout := 0, DefPath := "./logs" }

/-- The message of the sentinel `SignKilled`. -/
def SignKilled : String := "signal: killed"

/-- The errors `Stop` can return: the two sentinels, or whatever the
signalling call reported. -/
inductive StopError where
  | NotRunning
  | TimeExpired
  | Errno (msg : String)
  deriving DecidableEq, Repr

/-- The number of `syscall.SIGKILL`. -/
def SIGKILL : Int := 9

/-! ## Decimal rendering (`%d`) -/

/-- The character of one decimal digit. -/
def digitChar (d : Nat) : Char := Char.ofNat (48 + d)

/-- The digit loop of the decimal rendering: the digits of `n` are put in front
of `acc`, the least significant first. `fuel` bounds the number of rounds. -/
def natDecAux : Nat → Nat → List Char → List Char
  | 0, _, acc => acc
  | fuel + 1, n, acc =>
    if n < 10 then digitChar n :: acc
    else natDecAux fuel (n / 10) (digitChar (n % 10) :: acc)

/-- The decimal digits of a natural number, most significant first; `0` is
rendered as a single `0`. -/
def natDec (n : Nat) : List Char := natDecAux (n + 1) n []

/-- The verb `%d` of `fmt.Sprintf` applied to an integer. -/
def fmtDec : Int → String
  | Int.ofNat n => ⟨natDec n⟩
  | Int.negSucc n => ⟨'-' :: natDec (n + 1)⟩

/-! ## Predicates on the state -/

/-- The method `IsRunning`. -/
def IsRunning (o : Shell) : Bool :=
  o.State == 0 || o.State == 2 || o.State == 5

/-- The method `IsFinish`. -/
def IsFinish (o : Shell) : Bool :=
  o.State == 1 || o.State == 3 || o.State == 4 || decide (o.State > 5)

/-! ## Finish -/

/-- The method `Finish`; `now` is the reading of `time.Now()`. -/
def Finish (State : Int) (now : Time) (o : Shell) : Shell :=
  let o := { o with State := State }
  let o := { o with EndTime := now }
  let o := { o with Content := "" }
  if IsFinish o || o.State == 5 then
    { o with Args := [], PoolAttr := [], GlobalArgs := [], Agent := [] }
  else o

/-! ## Init -/

/-- The method `GetUUID`; `t` is the reading of `time.Now()`. -/
def GetUUID (t : Time) (o : Shell) : Shell :=
  let o := { o with Id := t.UnixNano }
  { o with Idx := fmtDec o.Id }

/-- The method `Init`; `clock 0`, `clock 1` and `clock 2` are the three
readings of `time.Now()` it makes, in order. -/
def Init (cfg : Config) (clock : Nat → Time) (o : Shell) : Shell :=
  let o := GetUUID (clock 0) o
  let o := { o with Pid := 0 }
  let o := { o with State := 0 }
  let o := { o with BeginTime := clock 1 }
  let o := { o with EndTime := clock 2 }
  let o := if o.Timeout < cfg.MinTimeout then { o with Timeout := cfg.DefTimeout } else o
  let o :=
    if cfg.MaxTimeout > 0 then
      if o.Timeout > cfg.MaxTimeout then { o with Timeout := cfg.MaxTimeout } else o
    else o
  let o := if o.Path = "" then { o with Path := cfg.DefPath } else o
  if o.Role = "" then { o with Role := "root" } else o

/-! ## File names -/

/-- The method `FileName`: `fmt.Sprintf("%s/%d", o.Path, o.Id)`. -/
def FileName (o : Shell) : String := o.Path ++ "/" ++ fmtDec o.Id

/-- The method `OutputFileName`: `fmt.Sprintf("%s/%d.log", o.Path, o.Id)`. -/
def OutputFileName (o : Shell) : String := o.Path ++ "/" ++ fmtDec o.Id ++ ".log"

/-! ## The host -/

/-- The `exec.Cmd` that `Start` builds, reduced to the fields it sets. -/
structure Cmd where
  Name : String
  Argv : List String
  Env : List String
  Setpgid : Bool
  Credential : Option (Nat × Nat)
  deriving DecidableEq, Repr

/-- How the watcher goroutine of `Waiting` ran relative to the waiting flow:
it took the wait marker and did nothing, or it took the deadline and finished
the task as timed out before the waiting flow read the state, or it did so
after the waiting flow had set the final state. -/
inductive Watcher where
  | marker
  | deadlineBefore
  | deadlineAfter
  deriving DecidableEq, Repr

/-- Everything outside the program that `Start` and `Stop` consult. -/
structure Host where
  /-- Whether `os.OpenFile` on this name succeeds. -/
  openFile : String → Bool
  /-- Whether `File.WriteString` of this content to this name succeeds. -/
  writeString : String → String → Bool
  /-- The `Uid` of `user.Current()`, or `none` when it fails. -/
  current : Option String
  /-- The result of `user.Lookup`, `none` when it fails. -/
  lookup : String → Option User
  /-- The value of `strconv.Atoi` (0 when it fails: the source drops the error). -/
  atoi : String → Int
  /-- The result of `cmd.Start()`: the pid of the child, or `none` on error. -/
  start : Cmd → Option Int
  /-- The result of `cmd.Wait()`: `none`, or the message of its error. -/
  wait : Option String
  /-- How the watcher goroutine ran. -/
  watcher : Watcher
  /-- The successive readings of `time.Now()`. -/
  clock : Nat → Time
  /-- The function `strings.ToUpper`. -/
  toUpper : String → String
  /-- The function `strings.TrimSpace`. -/
  trimSpace : String → String
  /-- The environment of the calling process, `os.Environ()`. -/
  environ : List String

/-! ## Save and CheckRole -/

/-- The method `Save`; `now` is the reading of `time.Now()` inside `Finish`. -/
def Save (h : Host) (now : Time) (o : Shell) : Bool × Shell :=
  if !h.openFile (FileName o) then (false, Finish 1 now o)
  else if !h.writeString (FileName o) o.Content then (false, Finish 1 now o)
  else (true, Finish 2 now o)

/-- The method `CheckRole`; `now` is the reading of `time.Now()` inside
`Finish`. -/
def CheckRole (h : Host) (now : Time) (o : Shell) : Bool × Shell :=
  match h.current with
  | none => (false, o)
  | some uid =>
    if uid ≠ "0" then (false, o)
    else
      match h.lookup o.Role with
      | none => (false, Finish 3 now o)
      | some u => (true, { o with User := some u })

/-! ## Waiting -/

/-- The classification step of `Waiting`: what the waiting flow does with the
error of `cmd.Wait()` once it has signalled the watcher. -/
def WaitingClassify (err : Option String) (now : Time) (o : Shell) : Shell :=
  match err with
  | some msg =>
    if msg = SignKilled then
      if o.State ≠ 6 then Finish 8 now o else o
    else Finish 7 now o
  | none => Finish 9 now o

/-- The method `Waiting`: the watcher goroutine and the waiting flow, in the
order the host ran them. `t1` and `t2` are the readings of `time.Now()` of the
first and of the second `Finish`. -/
def Waiting (w : Watcher) (err : Option String) (t1 t2 : Time) (o : Shell) : Shell :=
  match w with
  | Watcher.marker => WaitingClassify err t1 o
  | Watcher.deadlineBefore => WaitingClassify err t2 (Finish 6 t1 o)
  | Watcher.deadlineAfter => Finish 6 t2 (WaitingClassify err t1 o)

/-! ## Start -/

/-- The two variables appended for one entry of a two-namespace group. -/
def envPair (h : Host) (p1 p2 : String) (arg : Arg) : List String :=
  [p1 ++ h.toUpper arg.Key ++ "=" ++ h.trimSpace arg.Value,
   p2 ++ h.toUpper arg.Key ++ "=" ++ h.trimSpace arg.Value]

/-- One `for _, arg := range` loop of `Start` over a two-namespace group:
each round appends two variables to `cmd.Env`. -/
def appendPairs (h : Host) (p1 p2 : String) (env : List String) (args : List Arg) :
    List String :=
  args.foldl (fun env arg => env ++ envPair h p1 p2 arg) env

/-- The loop of `Start` over `Agent`: each round appends one variable. -/
def appendSingles (h : Host) (p : String) (env : List String) (args : List Arg) :
    List String :=
  args.foldl (fun env arg => env ++ [p ++ h.toUpper arg.Key ++ "=" ++ h.trimSpace arg.Value]) env

/-- The four guarded loops of `Start` that fill `cmd.Env`. -/
def buildEnv (h : Host) (o : Shell) (env : List String) : List String :=
  let env := if o.PoolAttr.length > 0 then appendPairs h "APP_" "POOL_" env o.PoolAttr else env
  let env := if o.GlobalArgs.length > 0 then appendPairs h "APP_" "GLOBAL_" env o.GlobalArgs else env
  let env := if o.Args.length > 0 then appendPairs h "APP_TASK_" "SH_ARG_" env o.Args else env
  if o.Agent.length > 0 then appendSingles h "AGENT_" env o.Agent else env

/-- What a call of `Start` leaves behind: its result, the task, and the command
it handed to `cmd.Start()` when it got that far. -/
structure StartOut where
  ok : Bool
  task : Shell
  cmd : Option Cmd
  deriving DecidableEq, Repr

/-- The tail of `Start` from the environment loops on, once the command and
its credential are settled. -/
def startSpawn (h : Host) (cmd : Cmd) (o : Shell) : StartOut :=
  let cmd := { cmd with Env := buildEnv h o cmd.Env }
  match h.start cmd with
  | none => { ok := false, task := Finish 4 (h.clock 2) o, cmd := some cmd }
  | some pid =>
    let o := Finish 5 (h.clock 2) o
    let o := { o with Pid := pid }
    { ok := true, task := Waiting h.watcher h.wait (h.clock 3) (h.clock 4) o, cmd := some cmd }

/-- The method `Start`. -/
def Start (h : Host) (o : Shell) : StartOut :=
  let o := { o with BeginTime := h.clock 0 }
  let (saved, o) := Save h (h.clock 1) o
  if !saved then { ok := false, task := o, cmd := none }
  else
    let cmd : Cmd :=
      { Name := "sh", Argv := ["sh", "-c", FileName o], Env := [], Setpgid := true,
        Credential := none }
    if o.Role ≠ "root" then
      let (okRole, o) := CheckRole h (h.clock 2) o
      if !okRole then { ok := false, task := o, cmd := none }
      else
        match o.User with
        | none => { ok := false, task := o, cmd := none } -- not reached: `CheckRole` set `User`
        | some u =>
          let uid := h.atoi u.Uid
          let gid := h.atoi u.Gid
          let cmd := { cmd with Credential := some ((uid % 2 ^ 32).toNat, (gid % 2 ^ 32).toNat) }
          startSpawn h cmd o
    else startSpawn h cmd o

/-! ## The environment of the child (`os/exec`) -/

/-- The name under which `os/exec` files an environment entry: the text before
the first `=`, a leading `=` being taken as part of the name; `none` for an
entry without `=`. -/
def envKey (kv : List Char) : Option (List Char) :=
  match kv with
  | [] => none
  | c :: rest =>
    if c = '=' then
      if '=' ∈ rest then some (c :: rest.takeWhile (fun x => x != '=')) else some []
    else if '=' ∈ rest then some (c :: rest.takeWhile (fun x => x != '=')) else none

/-- The backward pass of `dedupEnv` in `os/exec`, over the reversed list: an
entry holding a NUL character is dropped, an entry without `=` is kept unless
it is empty, and of the entries filed under one name only the first met (the
last of the original list) is kept. `saw` holds the names met so far. -/
def dedupEnvRev (saw : List (List Char)) : List String → List String
  | [] => []
  | kv :: rest =>
    if Char.ofNat 0 ∈ kv.data then dedupEnvRev saw rest
    else
      match envKey kv.data with
      | none => if kv ≠ "" then kv :: dedupEnvRev saw rest else dedupEnvRev saw rest
      | some k => if k ∈ saw then dedupEnvRev saw rest else kv :: dedupEnvRev (k :: saw) rest

/-- The function `dedupEnv` of `os/exec`: duplicates are removed in favour of
later values, the order of what remains is kept. -/
def dedupEnv (env : List String) : List String :=
  (dedupEnvRev [] env.reverse).reverse

/-- The environment the spawned child receives, as `os/exec` defines it
(`Cmd.environ`, no working directory set): the caller's when the command's
`Env` is empty (`nil`), the `Env` list otherwise, in both cases with
duplicates removed by `dedupEnv`. -/
def childEnviron (environ : List String) (cmd : Cmd) : List String :=
  dedupEnv (if cmd.Env.isEmpty then environ else cmd.Env)

/-! ## Stop -/

/-- What a call of `Stop` leaves behind: the task, the signals sent (target and
signal number) and the error returned. -/
structure StopOut where
  task : Shell
  sent : List (Int × Int)
  err : Option StopError
  deriving DecidableEq, Repr

/-- The method `Stop`; `kill` is `syscall.Kill` (`none` on success, the
message of the error otherwise) and `now` the reading of `time.Now()`. -/
def Stop (kill : Int → Int → Option String) (now : Time) (o : Shell) : StopOut :=
  if IsFinish o then { task := o, sent := [], err := some StopError.NotRunning }
  else if wrap64 (now.Unix - o.BeginTime.Unix) > 3600 then
    { task := o, sent := [], err := some StopError.TimeExpired }
  else if o.Pid = 0 then { task := o, sent := [], err := some StopError.NotRunning }
  else
    match kill (wrap64 (-o.Pid)) SIGKILL with
    | some msg =>
      { task := o, sent := [(wrap64 (-o.Pid), SIGKILL)], err := some (StopError.Errno msg) }
    | none => { task := o, sent := [(wrap64 (-o.Pid), SIGKILL)], err := none }

/-! ## The derived environment, as specified -/

/-- The variables derived from the parameter groups, written after the
specification: for each `PoolAttr` entry `APP_K=V` and `POOL_K=V`, then for
each `GlobalArgs` entry `APP_K=V` and `GLOBAL_K=V`, then for each `Args` entry
`APP_TASK_K=V` and `SH_ARG_K=V`, then for each `Agent` entry `AGENT_K=V`, with
`K` the key upper-cased and `V` the value trimmed. -/
def specEnv (h : Host) (o : Shell) : List String :=
  o.PoolAttr.flatMap (fun a =>
      ["APP_" ++ h.toUpper a.Key ++ "=" ++ h.trimSpace a.Value,
       "POOL_" ++ h.toUpper a.Key ++ "=" ++ h.trimSpace a.Value]) ++
    o.GlobalArgs.flatMap (fun a =>
      ["APP_" ++ h.toUpper a.Key ++ "=" ++ h.trimSpace a.Value,
       "GLOBAL_" ++ h.toUpper a.Key ++ "=" ++ h.trimSpace a.Value]) ++
    o.Args.flatMap (fun a =>
      ["APP_TASK_" ++ h.toUpper a.Key ++ "=" ++ h.trimSpace a.Value,
       "SH_ARG_" ++ h.toUpper a.Key ++ "=" ++ h.trimSpace a.Value]) ++
    o.Agent.map (fun a => "AGENT_" ++ h.toUpper a.Key ++ "=" ++ h.trimSpace a.Value)

/-! ## Sample inputs -/

/-- A task as a caller hands it to `Init`: a script, a short timeout and one
entry in two of the parameter groups. -/
def sampleTask : Shell :=
  { Id := 42, Idx := "42", Content := "uptime", Timeout := 3, Role := "root",
    Args := [{ Key := "a", Value := " b " }], PoolAttr := [], GlobalArgs := [],
    Agent := [{ Key := "v", Value := "1" }], State := 0, Pid := 0, Path := "./logs",
    BeginTime := { Unix := 0, Nsec := 0 }, EndTime := { Unix := 0, Nsec := 0 }, User := none }

/-- The sample task while its child runs. -/
def runningTask : Shell :=
  { sampleTask with Content := "", Args := [], Agent := [], State := 5, Pid := 77 }

/-- The sample task after the watcher recorded the timeout. -/
def timedOutTask : Shell := { runningTask with State := 6 }

/-- A clock that always reads the same instant. -/
def fixedClock (t : Time) : Nat → Time := fun _ => t

/-- The instant one hour and one second after the epoch. -/
def hourLater : Time := { Unix := 3601, Nsec := 0 }

/-- A signalling call that always succeeds. -/
def killOk : Int → Int → Option String := fun _ _ => none

/-- Upper-casing of the ASCII letters of a string: `strings.ToUpper` on ASCII
text, used by the sample host. -/
def asciiUpper (s : String) : String := ⟨s.data.map Char.toUpper⟩

/-- Removal of leading and trailing ASCII white space: `strings.TrimSpace` on
ASCII text, used by the sample host. -/
def asciiTrim (s : String) : String :=
  ⟨((s.data.dropWhile Char.isWhitespace).reverse.dropWhile Char.isWhitespace).reverse⟩

/-- A host on which everything succeeds and the child exits cleanly, the
calling process being an ordinary user (uid 1000) with one environment
variable. -/
def plainHost : Host :=
  { openFile := fun _ => true, writeString := fun _ _ => true, current := some "1000",
    lookup := fun _ => some { Uid := "65534", Gid := "65534" }, atoi := fun _ => 65534,
    start := fun _ => some 77, wait := none, watcher := Watcher.marker,
    clock := fixedClock hourLater, toUpper := asciiUpper, trimSpace := asciiTrim,
    environ := ["PATH=/bin"] }

/-- The sample task, to be run as the user `nobody`. -/
def nobodyTask : Shell := { sampleTask with Role := "nobody" }

/-- The sample task with all four parameter groups empty. -/
def bareTask : Shell := { sampleTask with Args := [], Agent := [] }

/-- The command `Start` hands to the spawn for the task without parameters. -/
def bareCmd : Cmd :=
  { Name := "sh", Argv := ["sh", "-c", "./logs/42"], Env := [], Setpgid := true,
    Credential := none }

/-- The command `Start` hands to the spawn for the sample task. -/
def sampleCmd : Cmd :=
  { Name := "sh", Argv := ["sh", "-c", "./logs/42"],
    Env := ["APP_TASK_A=b", "SH_ARG_A=b", "AGENT_V=1"], Setpgid := true, Credential := none }

end GaiaTunnel

namespace GaiaTunnel

/-! ## Shared lemmas -/

theorem wrap64_of_range (x : Int) (hlo : -2 ^ 63 ≤ x) (hhi : x < 2 ^ 63) : wrap64 x = x := by
  unfold wrap64
  have h0 : (0 : Int) ≤ x + 2 ^ 63 := by omega
  have h1 : x + 2 ^ 63 < 2 ^ 64 := by omega
  rw [Int.emod_eq_of_lt h0 h1]
  omega

theorem IsFinish_iff (o : Shell) :
    IsFinish o = true ↔ o.State = 1 ∨ o.State = 3 ∨ o.State = 4 ∨ 5 < o.State := by
  simp [IsFinish, or_assoc]

theorem IsRunning_iff (o : Shell) :
    IsRunning o = true ↔ o.State = 0 ∨ o.State = 2 ∨ o.State = 5 := by
  simp [IsRunning, or_assoc]

/-- The shape of `Finish`: the lists are emptied exactly when the new state is
1, 3, 4 or at least 5. -/
theorem Finish_eq (s : Int) (now : Time) (o : Shell) :
    Finish s now o =
      if s = 1 ∨ s = 3 ∨ s = 4 ∨ 5 ≤ s then
        { o with State := s, EndTime := now, Content := "", Args := [], PoolAttr := [],
                 GlobalArgs := [], Agent := [] }
      else { o with State := s, EndTime := now, Content := "" } := by
  unfold Finish
  by_cases h : s = 1 ∨ s = 3 ∨ s = 4 ∨ 5 ≤ s
  · have h2 : (IsFinish { o with State := s, EndTime := now, Content := "" } ||
        ({ o with State := s, EndTime := now, Content := "" } : Shell).State == 5) = true := by
      simp only [Bool.or_eq_true, IsFinish_iff, beq_iff_eq]
      omega
    simp only [h2, h, if_true]
  · have h2 : (IsFinish { o with State := s, EndTime := now, Content := "" } ||
        ({ o with State := s, EndTime := now, Content := "" } : Shell).State == 5) = false := by
      rw [Bool.eq_false_iff]
      simp only [ne_eq, Bool.or_eq_true, IsFinish_iff, beq_iff_eq]
      omega
    simp only [h2, h, if_false]
    rfl

@[simp] theorem Finish_State (s : Int) (now : Time) (o : Shell) :
    (Finish s now o).State = s := by
  rw [Finish_eq]; split <;> rfl

/-! ## The classification step of `Waiting` -/

/-- The classification step alone, on a task it finds in state 5: no error
gives 9, an error whose message is exactly "signal: killed" gives 8, any other
error gives 7. -/
theorem WaitingClassify_running (o : Shell) (err : Option String) (now : Time)
    (h5 : o.State = 5) :
    (WaitingClassify err now o).State =
      match err with
      | none => 9
      | some msg => if msg = "signal: killed" then 8 else 7 := by
  cases err with
  | none => simp [WaitingClassify]
  | some msg =>
    by_cases hm : msg = "signal: killed"
    · have h6 : o.State ≠ 6 := by omega
      simp [WaitingClassify, SignKilled, hm, h6]
    · simp [WaitingClassify, SignKilled, hm]

/-- C1 fails as stated: the running sample task is in state 5 when the wait
returns with a "signal: killed" error, the watcher records the timeout before
the waiting flow reads the state, and `Waiting` ends in state 6, not 8. -/
theorem Waiting_running_timeout_recorded :
    runningTask.State = 5 ∧
      (Waiting Watcher.deadlineBefore (some "signal: killed") hourLater hourLater
        runningTask).State = 6 := by
  decide

/-- C1, amended: for a task in state 5 when the blocking wait returns,
`Waiting` ends, when the watcher takes the wait marker, in the state the
wait's error alone decides (no error 9, "signal: killed" 8, any other error
7); and when the watcher records the timeout after the wait returned and
before the waiting flow reads the state, in 9 for no error, 6 for
"signal: killed" and 7 for any other error. -/
theorem Waiting_running_spec (o : Shell) (err : Option String) (t1 t2 : Time)
    (h5 : o.State = 5) :
    (Waiting Watcher.marker err t1 t2 o).State =
        (match err with
          | none => 9
          | some msg => if msg = "signal: killed" then 8 else 7) ∧
      (Waiting Watcher.deadlineBefore err t1 t2 o).State =
        (match err with
          | none => 9
          | some msg => if msg = "signal: killed" then 6 else 7) := by
  have h6 : o.State ≠ 6 := by omega
  cases err with
  | none => simp [Waiting, WaitingClassify]
  | some msg =>
    by_cases hm : msg = "signal: killed"
    · simp [Waiting, WaitingClassify, SignKilled, hm, h6]
    · simp [Waiting, WaitingClassify, SignKilled, hm]

/-- C1, amended, at the running sample task with a kill error: state 8 when
the watcher took the marker, state 6 when it recorded the timeout first. -/
theorem Waiting_running_spec_witness :
    runningTask.State = 5 ∧
      (Waiting Watcher.marker (some "signal: killed") hourLater hourLater runningTask).State =
        (match (some "signal: killed" : Option String) with
          | none => 9
          | some msg => if msg = "signal: killed" then 8 else 7) ∧
      (Waiting Watcher.deadlineBefore (some "signal: killed") hourLater hourLater
          runningTask).State =
        (match (some "signal: killed" : Option String) with
          | none => 9
          | some msg => if msg = "signal: killed" then 6 else 7) :=
  ⟨by decide,
    Waiting_running_spec runningTask (some "signal: killed") hourLater hourLater (by decide)⟩

/-- When the watcher records the timeout only after the waiting flow has set
the final state, `Waiting` ends in state 6 whatever the wait returned. -/
theorem Waiting_deadlineAfter_State (err : Option String) (t1 t2 : Time) (o : Shell) :
    (Waiting Watcher.deadlineAfter err t1 t2 o).State = 6 := by
  simp [Waiting]

/-- C2 fails as stated: on a task already in state 6, a wait that returns no
error ends in state 9 and a wait that returns another error ends in state 7. -/
theorem WaitingClassify_timeout_overwritten :
    timedOutTask.State = 6 ∧
      (WaitingClassify none hourLater timedOutTask).State = 9 ∧
      (WaitingClassify (some "exit status 1") hourLater timedOutTask).State = 7 := by
  refine ⟨by decide, ?_, ?_⟩
  · simp [WaitingClassify]
  · simp [WaitingClassify, SignKilled]

/-- C2, amended: for a task whose state is already 6 when the blocking wait
returns, a "signal: killed" error leaves the whole task as it is, state 6
included; no error sets the state to 9 and any other error sets it to 7. -/
theorem WaitingClassify_timeout (o : Shell) (err : Option String) (now : Time)
    (h6 : o.State = 6) :
    (err = some "signal: killed" → WaitingClassify err now o = o) ∧
      (WaitingClassify err now o).State =
        match err with
        | none => 9
        | some msg => if msg = "signal: killed" then 6 else 7 := by
  constructor
  · intro he
    subst he
    simp [WaitingClassify, SignKilled, h6]
  · cases err with
    | none => simp [WaitingClassify]
    | some msg =>
      by_cases hm : msg = "signal: killed"
      · simp [WaitingClassify, SignKilled, hm, h6]
      · simp [WaitingClassify, SignKilled, hm]

/-- C2, amended, at the timed-out sample task with a kill error: nothing
changes. -/
theorem WaitingClassify_timeout_witness :
    timedOutTask.State = 6 ∧
      WaitingClassify (some "signal: killed") hourLater timedOutTask = timedOutTask :=
  ⟨by decide,
    (WaitingClassify_timeout timedOutTask (some "signal: killed") hourLater (by decide)).1 rfl⟩

/-! ## Finish -/

/-- C3: `Finish s` leaves the task with `State = s` and `Content` empty; the
four parameter-group lists are empty whenever `s` is 5 or one of 1, 3, 4, 6, 7,
8, 9, and are left as they were for `s = 0` and `s = 2`; `Id`, `Idx`,
`Timeout`, `Role`, `Pid`, `Path` and `BeginTime` never change. -/
theorem Finish_spec (s : Int) (now : Time) (o : Shell) :
    (Finish s now o).State = s ∧ (Finish s now o).Content = "" ∧
      (s = 5 ∨ s = 1 ∨ s = 3 ∨ s = 4 ∨ s = 6 ∨ s = 7 ∨ s = 8 ∨ s = 9 →
        (Finish s now o).Args = [] ∧ (Finish s now o).PoolAttr = [] ∧
          (Finish s now o).GlobalArgs = [] ∧ (Finish s now o).Agent = []) ∧
      (s = 0 ∨ s = 2 →
        (Finish s now o).Args = o.Args ∧ (Finish s now o).PoolAttr = o.PoolAttr ∧
          (Finish s now o).GlobalArgs = o.GlobalArgs ∧ (Finish s now o).Agent = o.Agent) ∧
      (Finish s now o).Id = o.Id ∧ (Finish s now o).Idx = o.Idx ∧
      (Finish s now o).Timeout = o.Timeout ∧ (Finish s now o).Role = o.Role ∧
      (Finish s now o).Pid = o.Pid ∧ (Finish s now o).Path = o.Path ∧
      (Finish s now o).BeginTime = o.BeginTime := by
  rw [Finish_eq]
  refine ⟨?_, ?_, ?_, ?_, ?_, ?_, ?_, ?_, ?_, ?_, ?_⟩
  · split <;> rfl
  · split <;> rfl
  · intro hs
    have hc : s = 1 ∨ s = 3 ∨ s = 4 ∨ 5 ≤ s := by omega
    rw [if_pos hc]
    exact ⟨rfl, rfl, rfl, rfl⟩
  · intro hs
    have hc : ¬ (s = 1 ∨ s = 3 ∨ s = 4 ∨ 5 ≤ s) := by omega
    rw [if_neg hc]
    exact ⟨rfl, rfl, rfl, rfl⟩
  all_goals split <;> rfl

/-- C3 at the sample task: entering the running state empties `Args`, and
recording "saved" keeps it. -/
theorem Finish_spec_witness :
    (Finish 5 hourLater sampleTask).Args = [] ∧
      (Finish 2 hourLater sampleTask).Args = sampleTask.Args :=
  ⟨((Finish_spec 5 hourLater sampleTask).2.2.1 (Or.inl rfl)).1,
    ((Finish_spec 2 hourLater sampleTask).2.2.2.1 (Or.inr rfl)).1⟩

/-! ## IsFinish and IsRunning -/

/-- C6 fails as stated: with `State = 10`, a value outside 1, 3, 4, 6, 7, 8, 9,
`IsFinish` returns true. -/
theorem IsFinish_ten :
    IsFinish { sampleTask with State := 10 } = true ∧
      ¬ ({ sampleTask with State := 10 } : Shell).State ∈ ([1, 3, 4, 6, 7, 8, 9] : List Int) := by
  decide

/-- C6, amended: `IsFinish` returns true exactly when `State` is 1, 3, 4 or
greater than 5, which for values up to 9 means exactly 1, 3, 4, 6, 7, 8, 9;
`IsRunning` returns true exactly when `State` is 0, 2 or 5; no state is both
running and finished. -/
theorem IsFinish_IsRunning_spec (o : Shell) :
    (IsFinish o = true ↔ o.State = 1 ∨ o.State = 3 ∨ o.State = 4 ∨ 5 < o.State) ∧
      (o.State ≤ 9 → (IsFinish o = true ↔ o.State ∈ ([1, 3, 4, 6, 7, 8, 9] : List Int))) ∧
      (IsRunning o = true ↔ o.State = 0 ∨ o.State = 2 ∨ o.State = 5) ∧
      ¬ (IsRunning o = true ∧ IsFinish o = true) := by
  refine ⟨IsFinish_iff o, ?_, IsRunning_iff o, ?_⟩
  · intro h9
    rw [IsFinish_iff]
    simp only [List.mem_cons, List.mem_singleton, List.not_mem_nil, or_false]
    omega
  · rw [IsFinish_iff, IsRunning_iff]
    omega

/-- C6, amended, at the timed-out sample task: it is finished. -/
theorem IsFinish_IsRunning_spec_witness :
    timedOutTask.State ≤ 9 ∧ IsFinish timedOutTask = true :=
  ⟨by decide, ((IsFinish_IsRunning_spec timedOutTask).2.1 (by decide)).2 (by decide)⟩

/-! ## Stop -/

/-- C4 fails as stated: a task that is not finished, has `Pid = 0` and began
more than an hour ago gets `TimeExpired`, not `NotRunning`. -/
theorem Stop_pid_zero_expired :
    IsFinish sampleTask = false ∧ sampleTask.Pid = 0 ∧
      (Stop killOk hourLater sampleTask).err = some StopError.TimeExpired := by
  decide

/-- C4, amended: `Stop` returns `NotRunning` whenever the task is finished,
whatever the elapsed time; otherwise `TimeExpired` whenever the current Unix
second minus `BeginTime`'s (in `int64` arithmetic) is greater than 3600,
whatever the pid; otherwise `NotRunning` when `Pid` is 0; otherwise it sends
SIGKILL once, to `-Pid`, and returns exactly the signalling call's result. In
the first three cases nothing is sent, and no field of the task ever changes. -/
theorem Stop_spec (kill : Int → Int → Option String) (now : Time) (o : Shell) :
    (IsFinish o = true →
        (Stop kill now o).err = some StopError.NotRunning ∧ (Stop kill now o).sent = []) ∧
      (IsFinish o = false → 3600 < wrap64 (now.Unix - o.BeginTime.Unix) →
        (Stop kill now o).err = some StopError.TimeExpired ∧ (Stop kill now o).sent = []) ∧
      (IsFinish o = false → wrap64 (now.Unix - o.BeginTime.Unix) ≤ 3600 → o.Pid = 0 →
        (Stop kill now o).err = some StopError.NotRunning ∧ (Stop kill now o).sent = []) ∧
      (IsFinish o = false → wrap64 (now.Unix - o.BeginTime.Unix) ≤ 3600 → o.Pid ≠ 0 →
        (Stop kill now o).err = (kill (wrap64 (-o.Pid)) SIGKILL).map StopError.Errno ∧
          (Stop kill now o).sent = [(wrap64 (-o.Pid), SIGKILL)]) ∧
      (Stop kill now o).task = o := by
  refine ⟨?_, ?_, ?_, ?_, ?_⟩
  · intro hf
    simp [Stop, hf]
  · intro hf ht
    simp [Stop, hf, ht]
  · intro hf ht hp
    have ht2 : ¬ (3600 < wrap64 (now.Unix - o.BeginTime.Unix)) := by omega
    simp [Stop, hf, ht2, hp]
  · intro hf ht hp
    have ht2 : ¬ (3600 < wrap64 (now.Unix - o.BeginTime.Unix)) := by omega
    unfold Stop
    simp only [hf, Bool.false_eq_true, if_false, gt_iff_lt, ht2, hp]
    cases kill (wrap64 (-o.Pid)) SIGKILL <;> simp
  · unfold Stop
    split
    · rfl
    · split
      · rfl
      · split
        · rfl
        · split <;> rfl

/-- C4, amended, at the running sample task within the hour: SIGKILL goes to
the group `-77` and the result is the signalling call's. -/
theorem Stop_spec_witness :
    IsFinish runningTask = false ∧
      wrap64 (({ Unix := 10, Nsec := 0 } : Time).Unix - runningTask.BeginTime.Unix) ≤ 3600 ∧
      runningTask.Pid ≠ 0 ∧
      (Stop killOk { Unix := 10, Nsec := 0 } runningTask).err = none ∧
      (Stop killOk { Unix := 10, Nsec := 0 } runningTask).sent = [(-77, 9)] :=
  ⟨by decide, by decide, by decide,
    (Stop_spec killOk { Unix := 10, Nsec := 0 } runningTask).2.2.2.1
      (by decide) (by decide) (by decide)⟩

/-! ## Init -/

/-- C5 fails as stated: with `MinTimeout = 5`, `DefTimeout = 10` and
`MaxTimeout = 8`, a `Timeout` of 3 is below the minimum and ends as 8, not 10;
with `MinTimeout = 100`, `DefTimeout = 5` and `MaxTimeout = 8`, a `Timeout` of
50 is above the maximum and ends as 5, not 8. -/
theorem Init_timeout_not_default :
    (Init { defaultConfig with MaxTimeout := 8 } (fixedClock hourLater) sampleTask).Timeout = 8 ∧
      (Init { MinTimeout := 100, DefTimeout := 5, MaxTimeout := 8, DefPath := "./logs" }
        (fixedClock hourLater) { sampleTask with Timeout := 50 }).Timeout = 5 := by
  constructor <;> simp [Init, GetUUID, defaultConfig, sampleTask]

/-- The `Timeout` that `Init` leaves, as one expression. -/
theorem Init_Timeout (cfg : Config) (clock : Nat → Time) (o : Shell) :
    (Init cfg clock o).Timeout =
      if 0 < cfg.MaxTimeout ∧
          cfg.MaxTimeout < (if o.Timeout < cfg.MinTimeout then cfg.DefTimeout else o.Timeout) then
        cfg.MaxTimeout
      else if o.Timeout < cfg.MinTimeout then cfg.DefTimeout else o.Timeout := by
  unfold Init GetUUID
  simp only [gt_iff_lt]
  by_cases h1 : o.Timeout < cfg.MinTimeout <;> by_cases h2 : 0 < cfg.MaxTimeout <;>
    by_cases h3 : cfg.MaxTimeout < cfg.DefTimeout <;>
    by_cases h4 : cfg.MaxTimeout < o.Timeout <;>
    by_cases h5 : o.Path = "" <;> by_cases h6 : o.Role = "" <;>
    simp [h1, h2, h3, h4, h5, h6]

/-- C5, amended: a `Timeout` below `MinTimeout` becomes `DefTimeout`, or
`MaxTimeout` when that is set and smaller than `DefTimeout`; a `Timeout` not
below `MinTimeout` and above a set `MaxTimeout` becomes `MaxTimeout`; a
`Timeout` not below `MinTimeout` and not above a set `MaxTimeout` is left
unchanged. -/
theorem Init_timeout_spec (cfg : Config) (clock : Nat → Time) (o : Shell) :
    (o.Timeout < cfg.MinTimeout →
        (Init cfg clock o).Timeout =
          if 0 < cfg.MaxTimeout ∧ cfg.MaxTimeout < cfg.DefTimeout then cfg.MaxTimeout
          else cfg.DefTimeout) ∧
      (cfg.MinTimeout ≤ o.Timeout → 0 < cfg.MaxTimeout → cfg.MaxTimeout < o.Timeout →
        (Init cfg clock o).Timeout = cfg.MaxTimeout) ∧
      (cfg.MinTimeout ≤ o.Timeout → (cfg.MaxTimeout ≤ 0 ∨ o.Timeout ≤ cfg.MaxTimeout) →
        (Init cfg clock o).Timeout = o.Timeout) := by
  rw [Init_Timeout]
  refine ⟨?_, ?_, ?_⟩
  · intro h1
    simp only [h1, if_true]
  · intro h1 h2 h3
    have h1n : ¬ (o.Timeout < cfg.MinTimeout) := by omega
    simp only [h1n, if_false]
    rw [if_pos ⟨h2, h3⟩]
  · intro h1 h2
    have h1n : ¬ (o.Timeout < cfg.MinTimeout) := by omega
    simp only [h1n, if_false]
    rw [if_neg]
    omega

/-- C5, amended, at the sample task under the initial configuration: its
`Timeout` of 3 is below 5 and becomes 10. -/
theorem Init_timeout_spec_witness :
    sampleTask.Timeout < defaultConfig.MinTimeout ∧
      (Init defaultConfig (fixedClock hourLater) sampleTask).Timeout =
        (if 0 < defaultConfig.MaxTimeout ∧ defaultConfig.MaxTimeout < defaultConfig.DefTimeout then
          defaultConfig.MaxTimeout
        else defaultConfig.DefTimeout) :=
  ⟨by decide, (Init_timeout_spec defaultConfig (fixedClock hourLater) sampleTask).1 (by decide)⟩

/-! ## Start: the environment of the child -/

theorem appendPairs_eq (h : Host) (p1 p2 : String) (args : List Arg) (env : List String) :
    appendPairs h p1 p2 env args = env ++ args.flatMap (envPair h p1 p2) := by
  unfold appendPairs
  induction args generalizing env with
  | nil => simp
  | cons a rest ih => simp [List.foldl_cons, ih, List.append_assoc]

theorem appendSingles_eq (h : Host) (p : String) (args : List Arg) (env : List String) :
    appendSingles h p env args =
      env ++ args.map (fun a => p ++ h.toUpper a.Key ++ "=" ++ h.trimSpace a.Value) := by
  unfold appendSingles
  induction args generalizing env with
  | nil => simp
  | cons a rest ih => simp [List.foldl_cons, ih, List.append_assoc]

theorem guardedPairs_eq (h : Host) (p1 p2 : String) (args : List Arg) (env : List String) :
    (if args.length > 0 then appendPairs h p1 p2 env args else env) =
      env ++ args.flatMap (envPair h p1 p2) := by
  cases args with
  | nil => simp
  | cons a rest => simp [appendPairs_eq]

theorem guardedSingles_eq (h : Host) (p : String) (args : List Arg) (env : List String) :
    (if args.length > 0 then appendSingles h p env args else env) =
      env ++ args.map (fun a => p ++ h.toUpper a.Key ++ "=" ++ h.trimSpace a.Value) := by
  cases args with
  | nil => simp
  | cons a rest => simp [appendSingles_eq]

theorem buildEnv_eq (h : Host) (o : Shell) (env : List String) :
    buildEnv h o env = env ++ specEnv h o := by
  unfold buildEnv specEnv
  simp only [guardedPairs_eq, guardedSingles_eq, List.append_assoc]
  rfl

theorem specEnv_congr (h : Host) (o o2 : Shell) (h1 : o2.PoolAttr = o.PoolAttr)
    (h2 : o2.GlobalArgs = o.GlobalArgs) (h3 : o2.Args = o.Args) (h4 : o2.Agent = o.Agent) :
    specEnv h o2 = specEnv h o := by
  unfold specEnv
  rw [h1, h2, h3, h4]

theorem specEnv_Finish_two (h : Host) (now : Time) (o : Shell) :
    specEnv h (Finish 2 now o) = specEnv h o := by
  rw [Finish_eq, if_neg (by omega)]
  rfl

theorem startSpawn_cmd (h : Host) (cmd : Cmd) (o : Shell) :
    (startSpawn h cmd o).cmd = some { cmd with Env := cmd.Env ++ specEnv h o } := by
  unfold startSpawn
  simp only [buildEnv_eq]
  split <;> rfl

theorem Save_cases (h : Host) (now : Time) (o : Shell) :
    Save h now o = (true, Finish 2 now o) ∨ Save h now o = (false, Finish 1 now o) := by
  unfold Save
  by_cases ho : h.openFile (FileName o) = true
  · by_cases hw : h.writeString (FileName o) o.Content = true
    · left; simp [ho, hw]
    · right; simp [ho, hw]
  · right; simp [ho]

theorem CheckRole_cases (h : Host) (now : Time) (o : Shell) :
    (∃ u, CheckRole h now o = (true, { o with User := some u })) ∨
      CheckRole h now o = (false, Finish 3 now o) ∨
      (CheckRole h now o = (false, o) ∧ h.current ≠ some "0") := by
  unfold CheckRole
  cases hcur : h.current with
  | none => right; right; simp
  | some uid =>
    by_cases hu : uid = "0"
    · subst hu
      cases hl : h.lookup o.Role with
      | none => right; left; simp
      | some u => left; exact ⟨u, by simp⟩
    · right; right; simp [hu]

theorem Start_cmd_env (h : Host) (o : Shell) (c : Cmd) (hc : (Start h o).cmd = some c) :
    c.Env = specEnv h o := by
  have e1 : specEnv h (Finish 2 (h.clock 1) { o with BeginTime := h.clock 0 }) = specEnv h o := by
    rw [specEnv_Finish_two]; rfl
  unfold Start at hc
  dsimp only at hc
  rcases Save_cases h (h.clock 1) { o with BeginTime := h.clock 0 } with hs | hs
  · rw [hs] at hc
    dsimp only at hc
    simp only [Bool.not_true, Bool.false_eq_true, if_false] at hc
    split at hc
    · rcases CheckRole_cases h (h.clock 2) (Finish 2 (h.clock 1) { o with BeginTime := h.clock 0 })
        with ⟨u, hr⟩ | hr | ⟨hr, _⟩
      · rw [hr] at hc
        dsimp only at hc
        simp only [Bool.not_true, Bool.false_eq_true, if_false, startSpawn_cmd] at hc
        simp only [Option.some.injEq] at hc
        rw [← hc, ← e1]
        exact specEnv_congr _ _ _ rfl rfl rfl rfl
      · rw [hr] at hc
        simp at hc
      · rw [hr] at hc
        simp at hc
    · rw [startSpawn_cmd] at hc
      simp only [Option.some.injEq] at hc
      rw [← hc]
      simpa using e1
  · rw [hs] at hc
    simp at hc

theorem length_flatMap_two (f g : Arg → String) (l : List Arg) :
    (l.flatMap (fun a => [f a, g a])).length = 2 * l.length := by
  induction l with
  | nil => rfl
  | cons a rest ih =>
    rw [List.flatMap_cons, List.length_append, ih, List.length_cons]
    simp only [List.length_cons, List.length_nil]
    omega

theorem specEnv_length (h : Host) (o : Shell) :
    (specEnv h o).length =
      2 * (o.PoolAttr.length + o.GlobalArgs.length + o.Args.length) + o.Agent.length := by
  unfold specEnv
  simp only [List.length_append, length_flatMap_two, List.length_map]
  omega

theorem specEnv_eq_nil_iff (h : Host) (o : Shell) :
    specEnv h o = [] ↔ o.PoolAttr = [] ∧ o.GlobalArgs = [] ∧ o.Args = [] ∧ o.Agent = [] := by
  rw [← List.length_eq_zero, specEnv_length]
  simp only [← List.length_eq_zero]
  omega

/-- C8: the variables `Start` derives from the parameter groups are exactly
those the specification lists (`specEnv`), in that order, both as the result of
the four loops on an empty `Env` and as the `Env` of the command handed to the
spawn; their number is `2 * (|PoolAttr| + |GlobalArgs| + |Args|) + |Agent|`. -/
theorem Start_env_spec (h : Host) (o : Shell) :
    buildEnv h o [] = specEnv h o ∧
      (∀ c, (Start h o).cmd = some c → c.Env = specEnv h o) ∧
      (specEnv h o).length =
        2 * (o.PoolAttr.length + o.GlobalArgs.length + o.Args.length) + o.Agent.length := by
  refine ⟨?_, ?_, specEnv_length h o⟩
  · rw [buildEnv_eq, List.nil_append]
  · intro c hc
    exact Start_cmd_env h o c hc

/-- C8 at the sample task on the sample host: the command carries the three
variables of its one `Args` entry and its one `Agent` entry. -/
theorem Start_env_spec_witness :
    (Start plainHost sampleTask).cmd = some sampleCmd ∧
      sampleCmd.Env = specEnv plainHost sampleTask ∧
      specEnv plainHost sampleTask = ["APP_TASK_A=b", "SH_ARG_A=b", "AGENT_V=1"] :=
  ⟨by decide, (Start_env_spec plainHost sampleTask).2.1 sampleCmd (by decide), by decide⟩

/-- The entries of a duplicated name: `dedupEnv` keeps the last one only. -/
theorem dedupEnv_keeps_last :
    dedupEnv ["APP_X=1", "POOL_X=1", "APP_X=2", "GLOBAL_X=2"] =
      ["POOL_X=1", "APP_X=2", "GLOBAL_X=2"] := by
  decide

/-- The environment of the child of `Start`: the caller's when all four
parameter-group lists are empty, the derived variables otherwise, in both
cases after `dedupEnv`. -/
theorem Start_childEnviron (h : Host) (o : Shell) (c : Cmd)
    (hc : (Start h o).cmd = some c) :
    childEnviron h.environ c =
      dedupEnv (if o.PoolAttr = [] ∧ o.GlobalArgs = [] ∧ o.Args = [] ∧ o.Agent = [] then
        h.environ else specEnv h o) := by
  unfold childEnviron
  rw [Start_cmd_env h o c hc]
  by_cases hn : o.PoolAttr = [] ∧ o.GlobalArgs = [] ∧ o.Args = [] ∧ o.Agent = []
  · rw [if_pos hn, (specEnv_eq_nil_iff h o).2 hn]
    rfl
  · rw [if_neg hn]
    have hne : specEnv h o ≠ [] := fun he => hn ((specEnv_eq_nil_iff h o).1 he)
    cases hs : specEnv h o with
    | nil => exact absurd hs hne
    | cons a rest => rfl

/-- C9, at the failing input: the sample host's environment holds `PATH=/bin`
and the sample task has one `Args` and one `Agent` entry; the child of `Start`
receives the three derived variables and not `PATH=/bin`. The same task with
its four lists emptied does get `PATH=/bin`. -/
theorem Start_env_not_inherited :
    (Start plainHost sampleTask).cmd = some sampleCmd ∧
      "PATH=/bin" ∈ plainHost.environ ∧
      childEnviron plainHost.environ sampleCmd = ["APP_TASK_A=b", "SH_ARG_A=b", "AGENT_V=1"] ∧
      ¬ "PATH=/bin" ∈ childEnviron plainHost.environ sampleCmd ∧
      (Start plainHost bareTask).cmd = some bareCmd ∧
      "PATH=/bin" ∈ childEnviron plainHost.environ bareCmd := by
  decide

end GaiaTunnel
namespace GaiaTunnel

/-! ## Start: the outcome -/

theorem WaitingClassify_State (err : Option String) (now : Time) (o : Shell) :
    (WaitingClassify err now o).State = 7 ∨ (WaitingClassify err now o).State = 8 ∨
      (WaitingClassify err now o).State = 9 ∨
      ((WaitingClassify err now o).State = 6 ∧ o.State = 6) := by
  cases err with
  | none => simp [WaitingClassify]
  | some msg =>
    by_cases hm : msg = SignKilled
    · by_cases h6 : o.State = 6
      · simp [WaitingClassify, hm, h6]
      · simp [WaitingClassify, hm, h6]
    · simp [WaitingClassify, hm]

theorem Waiting_State (w : Watcher) (err : Option String) (t1 t2 : Time) (o : Shell) :
    (Waiting w err t1 t2 o).State = 6 ∨ (Waiting w err t1 t2 o).State = 7 ∨
      (Waiting w err t1 t2 o).State = 8 ∨ (Waiting w err t1 t2 o).State = 9 := by
  cases w with
  | marker =>
    have h := WaitingClassify_State err t1 o
    simp only [Waiting]
    omega
  | deadlineBefore =>
    have h := WaitingClassify_State err t2 (Finish 6 t1 o)
    simp only [Waiting]
    omega
  | deadlineAfter =>
    left
    simp [Waiting]

theorem startSpawn_outcome (h : Host) (cmd : Cmd) (o : Shell) :
    ∃ c, (startSpawn h cmd o).cmd = some c ∧
      (((startSpawn h cmd o).ok = true ∧ (∃ pid, h.start c = some pid) ∧
          ((startSpawn h cmd o).task.State = 6 ∨ (startSpawn h cmd o).task.State = 7 ∨
            (startSpawn h cmd o).task.State = 8 ∨ (startSpawn h cmd o).task.State = 9)) ∨
        ((startSpawn h cmd o).ok = false ∧ h.start c = none ∧
          (startSpawn h cmd o).task.State = 4)) := by
  refine ⟨{ cmd with Env := buildEnv h o cmd.Env }, ?_, ?_⟩
  · unfold startSpawn
    dsimp only
    split <;> rfl
  · unfold startSpawn
    dsimp only
    cases hs : h.start { cmd with Env := buildEnv h o cmd.Env } with
    | none =>
      right
      exact ⟨rfl, rfl, Finish_State _ _ _⟩
    | some pid =>
      left
      refine ⟨rfl, ⟨pid, rfl⟩, ?_⟩
      exact Waiting_State _ _ _ _ _

theorem Start_outcome_of_spawn (r : StartOut) (h : Host)
    (hs : ∃ c, r.cmd = some c ∧
      ((r.ok = true ∧ (∃ pid, h.start c = some pid) ∧
          (r.task.State = 6 ∨ r.task.State = 7 ∨ r.task.State = 8 ∨ r.task.State = 9)) ∨
        (r.ok = false ∧ h.start c = none ∧ r.task.State = 4))) :
    (r.ok = true ∧ (∃ c pid, r.cmd = some c ∧ h.start c = some pid) ∧
        (r.task.State = 6 ∨ r.task.State = 7 ∨ r.task.State = 8 ∨ r.task.State = 9)) ∨
      (r.ok = false ∧ (¬ ∃ c pid, r.cmd = some c ∧ h.start c = some pid) ∧
        (r.task.State = 1 ∨ r.task.State = 3 ∨ r.task.State = 4)) := by
  rcases hs with ⟨c, hc, ⟨hok, ⟨pid, hp⟩, hst⟩ | ⟨hok, hn, hst⟩⟩
  · exact Or.inl ⟨hok, ⟨c, pid, hc, hp⟩, hst⟩
  · refine Or.inr ⟨hok, ?_, Or.inr (Or.inr hst)⟩
    rintro ⟨c2, pid, hc2, hp⟩
    rw [hc] at hc2
    cases hc2
    rw [hn] at hp
    cases hp

/-- Every way `Start` can end: with the child spawned, result true and a state
among 6, 7, 8, 9; without a spawned child, result false and state 1, 3 or 4;
or, when a role other than root is asked for and the caller could not be
confirmed as root, with result false and the state still 2. -/
theorem Start_outcome (h : Host) (o : Shell) :
    ((Start h o).ok = true ∧
        (∃ c pid, (Start h o).cmd = some c ∧ h.start c = some pid) ∧
        ((Start h o).task.State = 6 ∨ (Start h o).task.State = 7 ∨
          (Start h o).task.State = 8 ∨ (Start h o).task.State = 9)) ∨
      ((Start h o).ok = false ∧ (¬ ∃ c pid, (Start h o).cmd = some c ∧ h.start c = some pid) ∧
        ((Start h o).task.State = 1 ∨ (Start h o).task.State = 3 ∨
          (Start h o).task.State = 4)) ∨
      ((Start h o).ok = false ∧ (Start h o).cmd = none ∧ (Start h o).task.State = 2 ∧
        o.Role ≠ "root" ∧ h.current ≠ some "0") := by
  unfold Start
  dsimp only
  rcases Save_cases h (h.clock 1) { o with BeginTime := h.clock 0 } with hs | hs
  · rw [hs]
    dsimp only
    simp only [Bool.not_true, Bool.false_eq_true, if_false]
    split
    · rename_i hrole
      have hrole2 : o.Role ≠ "root" := by
        rw [Finish_eq, if_neg (by omega)] at hrole
        exact hrole
      rcases CheckRole_cases h (h.clock 2) (Finish 2 (h.clock 1) { o with BeginTime := h.clock 0 })
        with ⟨u, hr⟩ | hr | ⟨hr, hcur⟩
      · rw [hr]
        dsimp only
        simp only [Bool.not_true, Bool.false_eq_true, if_false]
        rcases Start_outcome_of_spawn _ h (startSpawn_outcome h _ _) with h1 | h1
        · exact Or.inl h1
        · exact Or.inr (Or.inl h1)
      · rw [hr]
        right; left
        simp
      · rw [hr]
        right; right
        simp [hrole2, hcur]
    · rcases Start_outcome_of_spawn _ h (startSpawn_outcome h _ _) with h1 | h1
      · exact Or.inl h1
      · exact Or.inr (Or.inl h1)
  · rw [hs]
    right; left
    simp

/-- C7, at the failing input: the sample task asking for the role `nobody`, on
a host whose calling process has uid 1000 and where saving succeeds. `Start`
returns false and leaves the state at 2 (saved), which `IsFinish` rejects and
`IsRunning` accepts. -/
theorem Start_not_root_unfinished :
    nobodyTask.Role ≠ "root" ∧ plainHost.current = some "1000" ∧
      (Start plainHost nobodyTask).ok = false ∧
      (Start plainHost nobodyTask).task.State = 2 ∧
      IsFinish (Start plainHost nobodyTask).task = false ∧
      IsRunning (Start plainHost nobodyTask).task = true := by
  decide

end GaiaTunnel
namespace GaiaTunnel

/-! ## File names -/

theorem digitChar_toNat (d : Nat) (hd : d < 10) : (digitChar d).toNat - 48 = d := by
  interval_cases d <;> rfl

theorem digitChar_ne (d : Nat) (hd : d < 10) : digitChar d ≠ '-' ∧ digitChar d ≠ 'g' := by
  interval_cases d <;> decide

theorem natDecAux_eq (fuel n : Nat) (acc : List Char) (hf : n < fuel) :
    natDecAux fuel n acc =
      (if n = 0 then ['0'] else ((Nat.digits 10 n).map digitChar).reverse) ++ acc := by
  induction fuel generalizing n acc with
  | zero => omega
  | succ fuel ih =>
    unfold natDecAux
    by_cases h10 : n < 10
    · rw [if_pos h10]
      by_cases h0 : n = 0
      · subst h0
        rfl
      · rw [if_neg h0, Nat.digits_of_lt 10 n h0 h10]
        rfl
    · rw [if_neg h10]
      have h0 : n ≠ 0 := by omega
      have hq : n / 10 ≠ 0 := by omega
      have hlt : n / 10 < fuel := by omega
      rw [ih (n / 10) _ hlt, if_neg hq, if_neg h0,
        Nat.digits_def' (by omega : 1 < 10) (by omega : 0 < n)]
      simp

theorem natDec_eq (n : Nat) :
    natDec n = if n = 0 then ['0'] else ((Nat.digits 10 n).map digitChar).reverse := by
  unfold natDec
  rw [natDecAux_eq (n + 1) n [] (by omega), List.append_nil]

theorem natDec_mem (n : Nat) (c : Char) (hc : c ∈ natDec n) : ∃ d, d < 10 ∧ c = digitChar d := by
  rw [natDec_eq] at hc
  by_cases h0 : n = 0
  · rw [if_pos h0] at hc
    refine ⟨0, by omega, ?_⟩
    simpa using hc
  · rw [if_neg h0] at hc
    simp only [List.mem_reverse, List.mem_map] at hc
    obtain ⟨d, hd, rfl⟩ := hc
    exact ⟨d, Nat.digits_lt_base (by omega) hd, rfl⟩

/-- The number a list of decimal digit characters stands for. -/
theorem natDec_value (n : Nat) :
    Nat.ofDigits 10 ((natDec n).reverse.map (fun c => c.toNat - 48)) = n := by
  rw [natDec_eq]
  by_cases h0 : n = 0
  · subst h0
    rfl
  · rw [if_neg h0, List.reverse_reverse, List.map_map]
    have hmap : (Nat.digits 10 n).map ((fun c => c.toNat - 48) ∘ digitChar) = Nat.digits 10 n := by
      conv_rhs => rw [← List.map_id (Nat.digits 10 n)]
      apply List.map_congr_left
      intro d hd
      exact digitChar_toNat d (Nat.digits_lt_base (by omega) hd)
    rw [hmap, Nat.ofDigits_digits]

theorem natDec_injective (n m : Nat) (h : natDec n = natDec m) : n = m := by
  rw [← natDec_value n, ← natDec_value m, h]

theorem fmtDec_mem (i : Int) (c : Char) (hc : c ∈ (fmtDec i).data) :
    c = '-' ∨ ∃ d, d < 10 ∧ c = digitChar d := by
  cases i with
  | ofNat n => exact Or.inr (natDec_mem n c hc)
  | negSucc n =>
    simp only [fmtDec, List.mem_cons] at hc
    rcases hc with hc | hc
    · exact Or.inl hc
    · exact Or.inr (natDec_mem _ c hc)

theorem fmtDec_injective (i j : Int) (h : fmtDec i = fmtDec j) : i = j := by
  cases i with
  | ofNat n =>
    cases j with
    | ofNat m =>
      replace h := congrArg String.data h
      simp only [fmtDec] at h
      rw [natDec_injective n m h]
    | negSucc m =>
      replace h := congrArg String.data h
      simp only [fmtDec] at h
      have hm : '-' ∈ natDec n := by rw [h]; exact List.mem_cons_self _ _
      obtain ⟨d, hd, he⟩ := natDec_mem n _ hm
      exact absurd he.symm (digitChar_ne d hd).1
  | negSucc n =>
    cases j with
    | ofNat m =>
      replace h := congrArg String.data h
      simp only [fmtDec] at h
      have hm : '-' ∈ natDec m := by rw [← h]; exact List.mem_cons_self _ _
      obtain ⟨d, hd, he⟩ := natDec_mem m _ hm
      exact absurd he.symm (digitChar_ne d hd).1
    | negSucc m =>
      replace h := congrArg String.data h
      simp only [fmtDec, List.cons.injEq, true_and] at h
      have := natDec_injective _ _ h
      have : n = m := by omega
      rw [this]

/-- C10: `FileName` is `Path`, "/" and the decimal rendering of `Id`, and
`OutputFileName` is `FileName` followed by ".log"; two tasks with the same
`Path` and different `Id`s have different script file names and different log
file names, and the script file name of one is never the log file name of the
other. -/
theorem FileName_unique (o1 o2 : Shell) (hp : o1.Path = o2.Path) (hid : o1.Id ≠ o2.Id) :
    FileName o1 = o1.Path ++ "/" ++ fmtDec o1.Id ∧
      OutputFileName o1 = FileName o1 ++ ".log" ∧
      FileName o1 ≠ FileName o2 ∧ OutputFileName o1 ≠ OutputFileName o2 ∧
      FileName o1 ≠ OutputFileName o2 ∧ OutputFileName o1 ≠ FileName o2 := by
  have key : ∀ a b : Shell, a.Path = b.Path → FileName a ≠ OutputFileName b := by
    intro a b hab he
    have hd := congrArg String.data he
    simp only [FileName, OutputFileName, String.data_append, hab, List.append_assoc,
      List.append_cancel_left_eq] at hd
    have hg : 'g' ∈ (fmtDec a.Id).data := by
      rw [hd]
      simp
    rcases fmtDec_mem _ _ hg with h1 | ⟨d, hd1, h1⟩
    · exact absurd h1 (by decide)
    · exact absurd h1.symm (digitChar_ne d hd1).2
  refine ⟨rfl, rfl, ?_, ?_, key o1 o2 hp, fun he => key o2 o1 hp.symm he.symm⟩
  · intro he
    have hd := congrArg String.data he
    simp only [FileName, String.data_append, hp, List.append_cancel_left_eq] at hd
    exact hid (fmtDec_injective _ _ (String.ext hd))
  · intro he
    have hd := congrArg String.data he
    simp only [OutputFileName, String.data_append, hp, List.append_cancel_left_eq,
      List.append_cancel_right_eq] at hd
    exact hid (fmtDec_injective _ _ (String.ext hd))

/-- C10 at the sample task and a copy of it with `Id = 43`: `./logs/42` and
`./logs/43` differ, and so do their log names. -/
theorem FileName_unique_witness :
    sampleTask.Path = ({ sampleTask with Id := 43 } : Shell).Path ∧
      sampleTask.Id ≠ ({ sampleTask with Id := 43 } : Shell).Id ∧
      FileName sampleTask = "./logs/42" ∧
      OutputFileName sampleTask = "./logs/42.log" ∧
      FileName sampleTask ≠ FileName { sampleTask with Id := 43 } ∧
      OutputFileName sampleTask ≠ OutputFileName { sampleTask with Id := 43 } ∧
      FileName sampleTask ≠ OutputFileName { sampleTask with Id := 43 } :=
  ⟨rfl, by decide, by decide, by decide,
    (FileName_unique sampleTask { sampleTask with Id := 43 } rfl (by decide)).2.2.1,
    (FileName_unique sampleTask { sampleTask with Id := 43 } rfl (by decide)).2.2.2.1,
    (FileName_unique sampleTask { sampleTask with Id := 43 } rfl (by decide)).2.2.2.2.1⟩

end GaiaTunnel
